import Mathlib

/-!
Shallow embedding of the session and authorization subsystem of the
MerchantDocManagementSystem backend.

Embedded sources:
* `backend/src/routes/auth.ts` — the `/login`, `/refresh`, `/logout` handlers
  (the Session Engine).
* `middleware/auth.ts` — `computePermissions`, `requireMerchantAccess`.
* `types/auth.ts` — `PERMISSIONS`, `ROLE_PERMISSIONS`, `JwtClaims`.

Modelling conventions:
* The Prisma database is a `Store`: a list of `User` rows and a list of
  `RefreshToken` rows.  `prisma.x.findUnique` is `List.find?` by id,
  `prisma.refreshToken.create` appends a row, `updateMany` maps over rows.
  `prisma.refreshToken.update` (by unique id) throws `P2025` when no row
  matches; this is modelled by an `Option Store` result, `none` landing in
  the handler's `catch` block (a 500 response, `AuthError.serverError`).
* Nondeterministic per-request data (clock, generated record id, generated
  random secret, request headers) is passed explicitly as a `ReqCtx`.
* argon2 hashing/verification and speakeasy TOTP verification are opaque
  effects; they are passed as a `Crypto` record of pure oracles.
* JavaScript string truthiness (`!x` treating `undefined` and `""` alike)
  is modelled explicitly where the handlers rely on it.
* `refreshCookie.split('.')` (single-character separator, JS semantics)
  is embedded as `splitDot` below.
* Times are naturals (milliseconds since epoch, as in `Date.now()`).
-/

/-- `types/auth.ts` `PERMISSIONS`: the closed permission universe
(`Object.values(PERMISSIONS)`, in declaration order). -/
def PERMISSIONS_values : List String :=
  ["merchant:read", "merchant:write", "user:manage", "doc:upload",
   "doc:view", "doc:delete", "kyc:verify", "billing:view",
   "audit:read", "settings:write"]

/-- The own property names of `Object.prototype` in a standard JS runtime.
`ROLE_PERMISSIONS` is a plain object literal, so bracket access on it falls
back to these inherited members (all of which evaluate to truthy function
or object values) before yielding `undefined`. -/
def objectPrototypeMembers : List String :=
  ["constructor", "hasOwnProperty", "isPrototypeOf", "propertyIsEnumerable",
   "toLocaleString", "toString", "valueOf", "__defineGetter__",
   "__defineSetter__", "__lookupGetter__", "__lookupSetter__", "__proto__"]

/-- A runtime value produced by `ROLE_PERMISSIONS[role]`: either a string
array (an own data property, or the `|| []` default), or a truthy member
inherited from `Object.prototype` (a function, or `Object.prototype` itself
for `__proto__`), identified here by its property name. -/
inductive JsPermsValue
  | arr (perms : List String)
  | proto (name : String)
deriving DecidableEq, Repr

/-- `types/auth.ts` `ROLE_PERMISSIONS`, looked up with JS property-access
semantics: the record literal's own properties first, then the members
inherited from `Object.prototype`, then `undefined` (`none`). -/
def ROLE_PERMISSIONS (role : String) : Option JsPermsValue :=
  if role == "ADMIN" then some (.arr PERMISSIONS_values)
  else if role == "MERCHANT_ADMIN" then
    some (.arr ["merchant:read", "merchant:write", "user:manage", "doc:upload",
          "doc:view", "doc:delete", "kyc:verify", "billing:view",
          "audit:read", "settings:write"])
  else if role == "MERCHANT_MANAGER" then
    some (.arr ["merchant:read", "user:manage", "doc:upload", "doc:view",
          "doc:delete", "kyc:verify", "billing:view"])
  else if role == "MERCHANT_USER" then
    some (.arr ["merchant:read", "doc:upload", "doc:view"])
  else if role == "READ_ONLY" then
    some (.arr ["merchant:read", "doc:view", "billing:view"])
  else if objectPrototypeMembers.contains role then some (.proto role)
  else none

/-- `middleware/auth.ts` `computePermissions`:
`ROLE_PERMISSIONS[role as keyof typeof ROLE_PERMISSIONS] || []`.
Every own value in the table is a non-empty (truthy) array and every
inherited `Object.prototype` member is truthy, so `|| []` fires exactly
when the lookup is `undefined`; an inherited member leaks through. -/
def computePermissions (role : String) : JsPermsValue :=
  (ROLE_PERMISSIONS role).getD (.arr [])

/-- `types/auth.ts` `JwtClaims` (the access-token payload). -/
structure JwtClaims where
  sub : String
  rid : String
  mid : Option String
  role : String
  perms : JsPermsValue
deriving DecidableEq, Repr

/-- Outcome of an express guard middleware: pass to the handler or 403. -/
inductive GuardResult
  | next
  | forbidden
deriving DecidableEq, Repr

/-- JavaScript `a || b` on `string | undefined` values: the first operand is
returned when truthy (defined and non-empty), otherwise the second. -/
def jsOr (a b : Option String) : Option String :=
  match a with
  | some s => if s == "" then b else some s
  | none => b

/-- `middleware/auth.ts` `requireMerchantAccess`.  The target id is
`req.params.merchantId || req.body.merchantId || req.query.merchantId`;
`ADMIN` bypasses; otherwise strict inequality `user.mid !== merchantId`
(on `string | undefined` values) yields a 403. -/
def requireMerchantAccess (user : JwtClaims)
    (params body query : Option String) : GuardResult :=
  let merchantId := jsOr (jsOr params body) query
  if user.role == "ADMIN" then .next
  else if user.mid != merchantId then .forbidden
  else .next

/-- The `User` row of the Prisma schema (fields the auth routes read). -/
structure User where
  id : String
  email : String
  passwordHash : String
  name : String
  role : String
  merchantId : Option String
  isActive : Bool
  twoFASecret : Option String
deriving DecidableEq, Repr

/-- The `RefreshToken` row of the Prisma schema. -/
structure RefreshToken where
  id : String
  userId : String
  tokenHash : String
  expiresAt : Nat
  revokedAt : Option Nat
  userAgent : Option String
  ip : Option String
deriving DecidableEq, Repr

/-- The database state the auth routes touch. -/
structure Store where
  users : List User
  refreshTokens : List RefreshToken
deriving DecidableEq, Repr

/-- Per-request environment: `Date.now()`, the id Prisma generates for a
created `RefreshToken` row, the `crypto.randomBytes(32).toString('base64url')`
output, and request headers. -/
structure ReqCtx where
  now : Nat
  freshId : String
  freshSecret : String
  userAgent : Option String
  ip : Option String
deriving DecidableEq, Repr

/-- Oracles for argon2 (`hash`, `verify(digest, plaintext)`) and speakeasy
TOTP verification (`(secret, code)`). -/
structure Crypto where
  argonHash : String → String
  argonVerify : String → String → Bool
  totpVerify : String → String → Bool

/-- The error responses the auth routes produce (spec §6 names). -/
inductive AuthError
  | invalidCredentials
  | twoFactorRequired
  | invalidTwoFactorCode
  | noRefreshToken
  | malformedToken
  | invalidOrExpiredToken
  | reuseDetected
  | serverError
deriving DecidableEq, Repr

/-- Successful login/refresh payload: the signed access-token claims and the
`rt` cookie value `recordId ++ "." ++ rawSecret`. -/
structure AuthSuccess where
  claims : JwtClaims
  cookie : String
deriving DecidableEq, Repr

/-- `prisma.user.findUnique({ where: { email } })`. -/
def findUserByEmail (st : Store) (email : String) : Option User :=
  st.users.find? (fun u => u.email == email)

/-- `prisma.user.findUnique({ where: { id } })` / the `user` relation join. -/
def findUserById (st : Store) (uid : String) : Option User :=
  st.users.find? (fun u => u.id == uid)

/-- `prisma.refreshToken.findUnique({ where: { id } })`. -/
def findTokenById (st : Store) (tid : String) : Option RefreshToken :=
  st.refreshTokens.find? (fun r => r.id == tid)

/-- `1000 * 60 * 60 * 24 * 30` ms: the 30-day refresh lifetime. -/
def thirtyDaysMs : Nat := 1000 * 60 * 60 * 24 * 30

/-- `prisma.refreshToken.updateMany({ where: { userId }, data: { revokedAt } })`. -/
def revokeAllForUser (st : Store) (uid : String) (now : Nat) : Store :=
  { st with refreshTokens :=
      st.refreshTokens.map (fun r =>
        if r.userId == uid then { r with revokedAt := some now } else r) }

/-- `prisma.refreshToken.update({ where: { id }, data: { revokedAt } })`:
throws (`none`) when no row has this id, otherwise sets `revokedAt`. -/
def updateRevokeById (st : Store) (tid : String) (now : Nat) : Option Store :=
  if st.refreshTokens.any (fun r => r.id == tid) then
    some { st with refreshTokens :=
        st.refreshTokens.map (fun r =>
          if r.id == tid then { r with revokedAt := some now } else r) }
  else none

/-- JS `value.split('.')` on character lists (separator one char, keeps
empty segments, `"" → [""]`). -/
def splitDotChars : List Char → List (List Char)
  | [] => [[]]
  | c :: rest =>
    if c == '.' then [] :: splitDotChars rest
    else
      match splitDotChars rest with
      | [] => [c :: []]
      | l :: ls => (c :: l) :: ls

/-- `refreshCookie.split('.')`. -/
def splitDot (s : String) : List String :=
  (splitDotChars s.data).map (fun l => String.mk l)

/-- The refresh handler's `const [tokenId, rawToken] = refreshCookie.split('.')`
destructuring followed by `if (!tokenId || !rawToken)`: missing positions are
`undefined`, and `undefined` and `""` are both falsy. -/
def parseCookie (c : String) : Option (String × String) :=
  let parts := splitDot c
  let tokenId := parts.headD ""
  let rawToken := (parts.drop 1).headD ""
  if tokenId == "" || rawToken == "" then none else some (tokenId, rawToken)

/-- `user.merchantId || undefined` in the jwt payload: an empty string is
falsy and becomes `undefined`. -/
def jsOrUndef : Option String → Option String
  | some s => if s == "" then none else some s
  | none => none

/-- The `jwt.sign` payload built by login and refresh:
`{ sub, rid, role, perms: computePermissions(role), mid: merchantId || undefined }`. -/
def mkClaims (user : User) (rid : String) : JwtClaims :=
  { sub := user.id, rid := rid, mid := jsOrUndef user.merchantId,
    role := user.role, perms := computePermissions user.role }

/-- The `prisma.refreshToken.create` row built by login and refresh: fresh id,
digest of the fresh secret, 30-day expiry, request metadata. -/
def newRefreshRow (rc : ReqCtx) (uid tokenHash : String) : RefreshToken :=
  { id := rc.freshId, userId := uid, tokenHash := tokenHash,
    expiresAt := rc.now + thirtyDaysMs, revokedAt := none,
    userAgent := rc.userAgent, ip := rc.ip }

/-- The success response of login and refresh: signed claims plus the
`rt` cookie value `freshId ++ "." ++ freshSecret`. -/
def mkSuccess (user : User) (rc : ReqCtx) : AuthSuccess :=
  { claims := mkClaims user rc.freshId,
    cookie := rc.freshId ++ "." ++ rc.freshSecret }

/-- The token-issuing tail of the login handler ("Generate tokens"):
persist a fresh `RefreshToken` row, sign the claims, set the `rt` cookie. -/
def issueTokens (env : Crypto) (st : Store) (rc : ReqCtx) (user : User) :
    Store × Except AuthError AuthSuccess :=
  let newTok := newRefreshRow rc user.id (env.argonHash rc.freshSecret)
  ({ st with refreshTokens := st.refreshTokens ++ [newTok] },
   .ok (mkSuccess user rc))

/-- `POST /api/auth/login` (`routes/auth.ts`).  Returns the store after the
call together with the response. -/
def login (env : Crypto) (st : Store) (rc : ReqCtx)
    (email password : String) (totpCode : Option String) :
    Store × Except AuthError AuthSuccess :=
  match findUserByEmail st email with
  | none => (st, .error .invalidCredentials)
  | some user =>
    if !user.isActive then (st, .error .invalidCredentials)
    else if !(env.argonVerify user.passwordHash password) then
      (st, .error .invalidCredentials)
    else
      match user.twoFASecret with
      | some secret =>
        -- `if (!totpCode)`: undefined or empty string are both falsy.
        if totpCode.getD "" == "" then (st, .error .twoFactorRequired)
        else if !(env.totpVerify secret (totpCode.getD "")) then
          (st, .error .invalidTwoFactorCode)
        else issueTokens env st rc user
      | none => issueTokens env st rc user

/-- `POST /api/auth/refresh` (`routes/auth.ts`), after the
`if (!refreshCookie)` early return. -/
def refreshWithCookie (env : Crypto) (st : Store) (rc : ReqCtx)
    (c : String) : Store × Except AuthError AuthSuccess :=
  match parseCookie c with
  | none => (st, .error .malformedToken)
  | some (tokenId, rawToken) =>
    match findTokenById st tokenId with
    | none => (st, .error .invalidOrExpiredToken)
    | some storedToken =>
      if storedToken.revokedAt.isSome || decide (storedToken.expiresAt < rc.now) then
        (st, .error .invalidOrExpiredToken)
      else if !(env.argonVerify storedToken.tokenHash rawToken) then
        -- Potential token reuse: revoke all of this user's tokens.
        (revokeAllForUser st storedToken.userId rc.now, .error .reuseDetected)
      else
        match findUserById st storedToken.userId with
        | none => (st, .error .serverError)
        | some user =>
          match updateRevokeById st tokenId rc.now with
          | none => (st, .error .serverError)
          | some st1 =>
            let newTok :=
              newRefreshRow rc storedToken.userId (env.argonHash rc.freshSecret)
            ({ st1 with refreshTokens := st1.refreshTokens ++ [newTok] },
             .ok (mkSuccess user rc))

/-- `POST /api/auth/refresh` (`routes/auth.ts`). -/
def refresh (env : Crypto) (st : Store) (rc : ReqCtx)
    (cookie : Option String) : Store × Except AuthError AuthSuccess :=
  match cookie with
  | none => (st, .error .noRefreshToken)
  | some c => refreshWithCookie env st rc c

/-- `POST /api/auth/logout` handler body (it runs behind `requireAuth`;
authentication itself is not modelled here).  `const [tokenId] =
refreshCookie.split('.')`; a missing cookie or falsy first segment skips the
revocation; a `P2025` throw from `update` lands in the catch (500). -/
def logout (st : Store) (rc : ReqCtx) (cookie : Option String) :
    Store × Except AuthError Unit :=
  match cookie with
  | none => (st, .ok ())
  | some c =>
    let tokenId := (splitDot c).headD ""
    if tokenId == "" then (st, .ok ())
    else
      match updateRevokeById st tokenId rc.now with
      | some st1 => (st1, .ok ())
      | none => (st, .error .serverError)

/-- The row update applied by `updateRevokeById st tid now` to each row. -/
def markRevokedIfId (tid : String) (now : Nat) (r : RefreshToken) : RefreshToken :=
  if r.id == tid then { r with revokedAt := some now } else r

/-- ACTIVE in the sense of the refresh handler's own check: not revoked and
not past `expiresAt` at time `now` (`expiresAt < now` is the expiry test). -/
def isActiveTok (now : Nat) (r : RefreshToken) : Bool :=
  r.revokedAt.isNone && !(decide (r.expiresAt < now))

/-- Row belongs to `uid` and is ACTIVE at time `now`. -/
def activePred (uid : String) (now : Nat) (r : RefreshToken) : Bool :=
  r.userId == uid && isActiveTok now r

/-- Number of ACTIVE `RefreshToken` rows owned by `uid` at time `now`. -/
def activeTokenCount (st : Store) (uid : String) (now : Nat) : Nat :=
  st.refreshTokens.countP (activePred uid now)

/-- The ids of all stored `RefreshToken` rows. -/
def storeIds (st : Store) : List String :=
  st.refreshTokens.map RefreshToken.id

/-- A cookie fragment that survives the `split('.')` round trip: non-empty
and dot-free (generated ids are cuids, secrets are base64url — both are). -/
def cleanFrag (s : String) : Bool :=
  s != "" && !(s.data.contains '.')

/-- Run a sequence of `/refresh` calls, each presenting the cookie returned
by the previous call; `none` as soon as one call does not succeed. -/
def runRefreshes (env : Crypto) : Store → String → List ReqCtx → Option Store
  | st, _, [] => some st
  | st, cookie, rc :: rest =>
    match refresh env st rc (some cookie) with
    | (st1, Except.ok out) => runRefreshes env st1 out.cookie rest
    | _ => none

/-- The time of the last executed call (`t` if the list is empty). -/
def endTimeFrom : Nat → List ReqCtx → Nat
  | t, [] => t
  | _, rc :: rest => endTimeFrom rc.now rest

/-- The call times are nondecreasing, starting no earlier than `t`. -/
def timesMonoFrom : Nat → List ReqCtx → Bool
  | _, [] => true
  | t, rc :: rest => decide (t ≤ rc.now) && timesMonoFrom rc.now rest

/-- Concrete oracles for witnesses: digests are `"digest-" ++ plaintext`,
verification is digest equality, the TOTP oracle accepts `"123456"`. -/
def testCrypto : Crypto where
  argonHash := fun s => "digest-" ++ s
  argonVerify := fun d s => d == "digest-" ++ s
  totpVerify := fun _ code => code == "123456"

/-- Concrete active user fixture. -/
def userAlice : User :=
  { id := "u1", email := "a@x.com",
    passwordHash := testCrypto.argonHash "Secret1234", name := "Alice",
    role := "MERCHANT_USER", merchantId := some "m1", isActive := true,
    twoFASecret := none }

/-- Concrete deactivated user fixture. -/
def userBob : User :=
  { id := "u2", email := "b@x.com",
    passwordHash := testCrypto.argonHash "Secret5678", name := "Bob",
    role := "MERCHANT_USER", merchantId := some "m1", isActive := false,
    twoFASecret := none }

/-- Concrete 2FA-enrolled user fixture. -/
def userCarol : User :=
  { id := "u3", email := "c@x.com",
    passwordHash := testCrypto.argonHash "Secret9999", name := "Carol",
    role := "MERCHANT_MANAGER", merchantId := some "m2", isActive := true,
    twoFASecret := some "JBSWY3DPEHPK3PXP" }

/-- A live refresh row for Alice whose secret is `"s1"`. -/
def tokAlice1 : RefreshToken :=
  { id := "R1", userId := "u1", tokenHash := testCrypto.argonHash "s1",
    expiresAt := 1000000000, revokedAt := none,
    userAgent := none, ip := none }

/-- A live refresh row for the deactivated user Bob, secret `"s5"`. -/
def tokBob1 : RefreshToken :=
  { id := "R5", userId := "u2", tokenHash := testCrypto.argonHash "s5",
    expiresAt := 500000, revokedAt := none,
    userAgent := none, ip := none }

/-- Store fixture: the three users, Alice holding one live refresh row. -/
def storeA : Store :=
  { users := [userAlice, userBob, userCarol], refreshTokens := [tokAlice1] }

/-- Request-context fixture factory. -/
def rcAt (now : Nat) (fid secret : String) : ReqCtx :=
  { now := now, freshId := fid, freshSecret := secret,
    userAgent := none, ip := none }

/-- Store fixture with no refresh rows (fresh session scenario). -/
def storeL : Store := { users := [userAlice], refreshTokens := [] }

/-- Claim C7 counterexample: `computePermissions "toString"` — a role value
outside the closed enum — does not map to the empty set: the bracket lookup
on the `ROLE_PERMISSIONS` object literal finds the truthy `toString` member
inherited from `Object.prototype`, so `|| []` never fires and the inherited
function leaks through instead of the empty array. -/
theorem computePermissions_prototype_leak :
    computePermissions "toString" = JsPermsValue.proto "toString" ∧
    JsPermsValue.proto "toString" ≠ JsPermsValue.arr [] :=
  ⟨rfl, by decide⟩

/-- Claim C7 (amended): `computePermissions` is a pure total function on role
strings; `ADMIN` (the spec's SystemAdmin) maps to the full ten-element
permission universe and each other enumerated role to its fixed documented
subset.  A role outside the closed enum maps to the empty array only when it
is not a property name inherited from `Object.prototype`; for each of the
twelve inherited names (such as `"toString"`) the lookup returns the truthy
inherited member, so the function is not fail-closed on those strings. -/
theorem computePermissions_role_table :
    computePermissions "ADMIN" = .arr PERMISSIONS_values ∧
    PERMISSIONS_values.length = 10 ∧
    computePermissions "MERCHANT_ADMIN" =
      .arr ["merchant:read", "merchant:write", "user:manage", "doc:upload",
       "doc:view", "doc:delete", "kyc:verify", "billing:view",
       "audit:read", "settings:write"] ∧
    computePermissions "MERCHANT_MANAGER" =
      .arr ["merchant:read", "user:manage", "doc:upload", "doc:view",
       "doc:delete", "kyc:verify", "billing:view"] ∧
    computePermissions "MERCHANT_USER" =
      .arr ["merchant:read", "doc:upload", "doc:view"] ∧
    computePermissions "READ_ONLY" =
      .arr ["merchant:read", "doc:view", "billing:view"] ∧
    (∀ role : String,
      role ∉ (["ADMIN", "MERCHANT_ADMIN", "MERCHANT_MANAGER",
               "MERCHANT_USER", "READ_ONLY"] : List String) →
      role ∉ objectPrototypeMembers →
      computePermissions role = .arr []) ∧
    (∀ role ∈ objectPrototypeMembers,
      computePermissions role = .proto role ∧
      JsPermsValue.proto role ≠ .arr []) := by
  refine ⟨rfl, rfl, rfl, rfl, rfl, rfl, ?_, ?_⟩
  · intro role h hm
    simp only [List.mem_cons, List.mem_singleton, not_or] at h
    obtain ⟨h1, h2, h3, h4, h5, -⟩ := h
    simp [computePermissions, ROLE_PERMISSIONS, h1, h2, h3, h4, h5, hm]
  · intro role h
    fin_cases h <;> exact ⟨rfl, by decide⟩

/-- Witness: an arbitrary unknown role maps to the empty array, while the
inherited name `"toString"` leaks the prototype member. -/
theorem computePermissions_role_table_witness :
    computePermissions "BOGUS" = JsPermsValue.arr [] ∧
    computePermissions "toString" = JsPermsValue.proto "toString" :=
  ⟨computePermissions_role_table.2.2.2.2.2.2.1 "BOGUS" (by decide) (by decide),
   (computePermissions_role_table.2.2.2.2.2.2.2 "toString" (by decide)).1⟩

/-- Claim C8: `requireMerchantAccess` (the spec's requireTenantAccess) lets
the `ADMIN` role through regardless of tenant ids; otherwise it passes
exactly when the claims' merchant id equals the (non-empty) target id by
exact equality, failing with 403 Forbidden on any mismatch — in particular
tenant "T1" against target "T2" is Forbidden while ADMIN passes. -/
theorem requireMerchantAccess_exact_tenant_match :
    ∀ (user : JwtClaims) (t : String),
      (user.role = "ADMIN" →
        requireMerchantAccess user (some t) none none = .next) ∧
      (user.role ≠ "ADMIN" → t ≠ "" →
        (requireMerchantAccess user (some t) none none = .next ↔
          user.mid = some t)) ∧
      (user.role ≠ "ADMIN" → t ≠ "" → user.mid ≠ some t →
        requireMerchantAccess user (some t) none none = .forbidden) := by
  intro user t
  refine ⟨?_, ?_, ?_⟩
  · intro h
    simp [requireMerchantAccess, h]
  · intro h ht
    simp [requireMerchantAccess, jsOr, h, ht, bne_iff_ne]
  · intro h ht hne
    simp [requireMerchantAccess, jsOr, h, ht, bne_iff_ne, hne]

theorem requireMerchantAccess_exact_tenant_match_witness :
    requireMerchantAccess
      { sub := "u1", rid := "R1", mid := some "T1",
        role := "MERCHANT_USER", perms := .arr [] } (some "T2") none none
      = GuardResult.forbidden ∧
    requireMerchantAccess
      { sub := "u0", rid := "R0", mid := none,
        role := "ADMIN", perms := .arr [] } (some "T2") none none
      = GuardResult.next :=
  ⟨(requireMerchantAccess_exact_tenant_match _ "T2").2.2
      (by decide) (by decide) (by decide),
   (requireMerchantAccess_exact_tenant_match _ "T2").1 rfl⟩

/-- Claim C10: for a non-admin whose claims carry no `mid`, a request with
no `merchantId` in params, body or query passes `requireMerchantAccess`:
`undefined !== undefined` is false, so the guard admits the request instead
of failing closed when the tenant id is missing on both sides. -/
theorem requireMerchantAccess_missing_tenant_passes :
    ∀ user : JwtClaims, user.role ≠ "ADMIN" → user.mid = none →
      requireMerchantAccess user none none none = .next := by
  intro user h hmid
  simp [requireMerchantAccess, jsOr, h, hmid]

theorem requireMerchantAccess_missing_tenant_passes_witness :
    requireMerchantAccess
      { sub := "u1", rid := "R1", mid := none,
        role := "MERCHANT_USER", perms := .arr [] } none none none
      = GuardResult.next :=
  requireMerchantAccess_missing_tenant_passes _ (by decide) rfl

/-- Claim C5: login for a fetched, active user with a stored TOTP secret,
a correct password and no supplied code fails with `TwoFactorRequired`
(distinct from `InvalidCredentials`) and returns the store unchanged —
no RefreshRecord is created. -/
theorem login_twofactor_required_no_record :
    ∀ (env : Crypto) (st : Store) (rc : ReqCtx) (email password : String)
      (u : User) (s : String),
      findUserByEmail st email = some u →
      u.isActive = true →
      env.argonVerify u.passwordHash password = true →
      u.twoFASecret = some s →
      login env st rc email password none = (st, .error .twoFactorRequired) ∧
      AuthError.twoFactorRequired ≠ AuthError.invalidCredentials := by
  intro env st rc email password u s hfind hact hpw h2fa
  refine ⟨?_, by decide⟩
  unfold login
  rw [hfind]
  simp [hact, hpw, h2fa]

theorem login_twofactor_required_no_record_witness :
    login testCrypto storeA (rcAt 50 "R9" "s9") "c@x.com" "Secret9999" none
      = (storeA, .error .twoFactorRequired) :=
  (login_twofactor_required_no_record testCrypto storeA (rcAt 50 "R9" "s9")
    "c@x.com" "Secret9999" userCarol "JBSWY3DPEHPK3PXP"
    rfl rfl (by decide) rfl).1

/-- Claim C6: a login against an email with no stored user and a login
against a deactivated user both fail with `InvalidCredentials`, the store
unchanged, and the two responses are equal — the caller cannot distinguish
an absent account from a deactivated one. -/
theorem login_absent_vs_inactive_same_error :
    ∀ (env : Crypto) (stA stB : Store) (rcA rcB : ReqCtx)
      (emailA pwA emailB pwB : String) (codeA codeB : Option String) (u : User),
      findUserByEmail stA emailA = none →
      findUserByEmail stB emailB = some u →
      u.isActive = false →
      login env stA rcA emailA pwA codeA = (stA, .error .invalidCredentials) ∧
      login env stB rcB emailB pwB codeB = (stB, .error .invalidCredentials) ∧
      (login env stA rcA emailA pwA codeA).2
        = (login env stB rcB emailB pwB codeB).2 := by
  intro env stA stB rcA rcB emailA pwA emailB pwB codeA codeB u hA hB hact
  have h1 : login env stA rcA emailA pwA codeA
      = (stA, .error .invalidCredentials) := by
    unfold login; rw [hA]
  have h2 : login env stB rcB emailB pwB codeB
      = (stB, .error .invalidCredentials) := by
    unfold login; rw [hB]; simp [hact]
  exact ⟨h1, h2, by rw [h1, h2]⟩

theorem login_absent_vs_inactive_same_error_witness :
    login testCrypto storeA (rcAt 1 "Rw" "sw") "zz@x.com" "whatever" none
      = (storeA, .error .invalidCredentials) ∧
    login testCrypto storeA (rcAt 2 "Rv" "sv") "b@x.com" "Secret5678" none
      = (storeA, .error .invalidCredentials) := by
  have h := login_absent_vs_inactive_same_error testCrypto storeA storeA
    (rcAt 1 "Rw" "sw") (rcAt 2 "Rv" "sv") "zz@x.com" "whatever"
    "b@x.com" "Secret5678" none none userBob rfl rfl rfl
  exact ⟨h.1, h.2.1⟩

/-- Claim C4 counterexample: logging out with a cookie naming a record id
that was never stored makes `prisma.refreshToken.update` throw `P2025`,
and the handler answers 500 `Logout failed` — not ok as the claim states. -/
theorem logout_never_present_record_fails :
    logout { users := [userAlice], refreshTokens := [] } (rcAt 5 "x" "y")
        (some "R1.s1")
      = ({ users := [userAlice], refreshTokens := [] },
         .error .serverError) ∧
    (Except.error AuthError.serverError : Except AuthError Unit) ≠ .ok () :=
  ⟨rfl, fun h => Except.noConfusion h⟩

theorem markRevokedIfId_id (tid : String) (now : Nat) (r : RefreshToken) :
    (markRevokedIfId tid now r).id = r.id := by
  unfold markRevokedIfId
  split <;> rfl

theorem updateRevokeById_pos {st : Store} {tid : String} (now : Nat)
    (h : st.refreshTokens.any (fun r => r.id == tid) = true) :
    updateRevokeById st tid now
      = some { st with
          refreshTokens := st.refreshTokens.map (markRevokedIfId tid now) } := by
  unfold updateRevokeById
  rw [if_pos h]
  rfl

theorem updateRevokeById_neg {st : Store} {tid : String} (now : Nat)
    (h : st.refreshTokens.any (fun r => r.id == tid) = false) :
    updateRevokeById st tid now = none := by
  unfold updateRevokeById
  rw [if_neg]
  intro hh
  rw [h] at hh
  exact Bool.noConfusion hh

theorem logout_some_eq (st : Store) (rc : ReqCtx) (c : String) :
    logout st rc (some c) =
      (if (splitDot c).headD "" == "" then (st, .ok ())
       else match updateRevokeById st ((splitDot c).headD "") rc.now with
         | some st1 => (st1, .ok ())
         | none => (st, .error .serverError)) := rfl

/-- Claim C4 (amended): logout succeeds when the cookie is absent, when the
parsed record id is falsy, and whenever the named record exists — even if
already revoked; logging out twice with the same cookie returns ok both
times. But when the parsed record id names no stored record the call fails
with a 500 server error instead of succeeding. -/
theorem logout_best_effort_on_existing_records :
    ∀ (st : Store) (rc rc2 : ReqCtx) (c : String),
      logout st rc none = (st, .ok ()) ∧
      ((splitDot c).headD "" = "" → logout st rc (some c) = (st, .ok ())) ∧
      (st.refreshTokens.any (fun r => r.id == (splitDot c).headD "") = true →
        (logout st rc (some c)).2 = .ok () ∧
        (logout (logout st rc (some c)).1 rc2 (some c)).2 = .ok ()) ∧
      ((splitDot c).headD "" ≠ "" →
        st.refreshTokens.any (fun r => r.id == (splitDot c).headD "") = false →
        logout st rc (some c) = (st, .error .serverError)) := by
  intro st rc rc2 c
  refine ⟨rfl, ?_, ?_, ?_⟩
  · intro h
    rw [logout_some_eq, if_pos (beq_iff_eq.mpr h)]
  · intro hany
    by_cases htid : (splitDot c).headD "" = ""
    · have h1 : logout st rc (some c) = (st, .ok ()) := by
        rw [logout_some_eq, if_pos (beq_iff_eq.mpr htid)]
      refine ⟨by rw [h1], ?_⟩
      rw [h1]
      show (logout st rc2 (some c)).2 = .ok ()
      rw [logout_some_eq, if_pos (beq_iff_eq.mpr htid)]
    · have hbeq : ¬ ((splitDot c).headD "" == "") = true :=
        fun hh => htid (beq_iff_eq.mp hh)
      have h1 : logout st rc (some c)
          = ({ st with refreshTokens := st.refreshTokens.map (markRevokedIfId ((splitDot c).headD "") rc.now) },
             .ok ()) := by
        rw [logout_some_eq, if_neg hbeq, updateRevokeById_pos rc.now hany]
      have hany2 : ((st.refreshTokens.map
            (markRevokedIfId ((splitDot c).headD "") rc.now)).any
            (fun r => r.id == (splitDot c).headD "")) = true := by
        rw [List.any_eq_true] at hany ⊢
        obtain ⟨r, hr, hid⟩ := hany
        refine ⟨_, List.mem_map_of_mem _ hr, ?_⟩
        rw [markRevokedIfId_id]
        exact hid
      refine ⟨by rw [h1], ?_⟩
      rw [h1]
      rw [logout_some_eq, if_neg hbeq, updateRevokeById_pos rc2.now hany2]
  · intro htid hany
    have hbeq : ¬ ((splitDot c).headD "" == "") = true :=
      fun hh => htid (beq_iff_eq.mp hh)
    rw [logout_some_eq, if_neg hbeq, updateRevokeById_neg rc.now hany]

theorem logout_best_effort_witness :
    (logout storeA (rcAt 10 "x" "y") (some "R1.s1")).2 = .ok () ∧
    (logout (logout storeA (rcAt 10 "x" "y") (some "R1.s1")).1
        (rcAt 20 "x" "y") (some "R1.s1")).2 = .ok () :=
  (logout_best_effort_on_existing_records storeA (rcAt 10 "x" "y")
    (rcAt 20 "x" "y") "R1.s1").2.2.1 (by decide)

theorem find?_congr_fn {α : Type} {p q : α → Bool} (h : ∀ a, p a = q a)
    (l : List α) : l.find? p = l.find? q := by
  induction l with
  | nil => rfl
  | cons a t ih =>
    rw [List.find?_cons, List.find?_cons, h a]
    cases q a
    · exact ih
    · rfl

/-- Claim C2: a refresh whose record resolves and is neither revoked nor
expired but whose presented secret fails digest verification answers
`ReuseDetected` and marks every RefreshToken of that record's user revoked;
no row is created (same row count) and no tokens are issued. -/
theorem refresh_bad_secret_revokes_family :
    ∀ (env : Crypto) (st : Store) (rc : ReqCtx) (c tid rtok : String)
      (tok : RefreshToken),
      parseCookie c = some (tid, rtok) →
      findTokenById st tid = some tok →
      tok.revokedAt = none →
      ¬ tok.expiresAt < rc.now →
      env.argonVerify tok.tokenHash rtok = false →
      refresh env st rc (some c)
        = (revokeAllForUser st tok.userId rc.now, .error .reuseDetected) ∧
      (∀ r ∈ (revokeAllForUser st tok.userId rc.now).refreshTokens,
        r.userId = tok.userId → r.revokedAt = some rc.now) ∧
      (revokeAllForUser st tok.userId rc.now).refreshTokens.length
        = st.refreshTokens.length := by
  intro env st rc c tid rtok tok hp hfind hrev hexp hver
  refine ⟨?_, ?_, ?_⟩
  · show refreshWithCookie env st rc c = _
    unfold refreshWithCookie
    simp only [hp, hfind, hrev, hver]
    simp [hexp]
  · intro r hr huid
    simp only [revokeAllForUser, List.mem_map] at hr
    obtain ⟨r0, hr0, rfl⟩ := hr
    by_cases h : (r0.userId == tok.userId) = true
    · rw [if_pos h]
    · rw [if_neg h] at huid ⊢
      exact absurd (beq_iff_eq.mpr huid) h
  · simp [revokeAllForUser]

theorem refresh_bad_secret_revokes_family_witness :
    refresh testCrypto storeA (rcAt 100 "R2" "s2") (some "R1.bad")
      = (revokeAllForUser storeA "u1" 100, .error .reuseDetected) :=
  (refresh_bad_secret_revokes_family testCrypto storeA (rcAt 100 "R2" "s2")
    "R1.bad" "R1" "bad" tokAlice1 rfl rfl rfl (by decide) (by decide)).1

/-- Claim C9: refresh never consults the owning user's `isActive` flag —
with a live record and a verifying secret the call succeeds and issues a
fresh access token and refresh cookie even though `isActive` is false, so
deactivating a user does not stop an existing session from refreshing. -/
theorem refresh_ignores_inactive_user :
    ∀ (env : Crypto) (st : Store) (rc : ReqCtx) (c tid rtok : String)
      (tok : RefreshToken) (user : User),
      parseCookie c = some (tid, rtok) →
      findTokenById st tid = some tok →
      tok.revokedAt = none →
      ¬ tok.expiresAt < rc.now →
      env.argonVerify tok.tokenHash rtok = true →
      findUserById st tok.userId = some user →
      user.isActive = false →
      ∃ st1 : Store,
        refresh env st rc (some c) = (st1, .ok (mkSuccess user rc)) := by
  intro env st rc c tid rtok tok user hp hfind hrev hexp hver huser hinact
  have hfind2 : st.refreshTokens.find? (fun r => r.id == tid) = some tok := hfind
  have hbeqid := List.find?_some hfind2
  have hany : st.refreshTokens.any (fun r => r.id == tid) = true := by
    rw [List.any_eq_true]
    exact ⟨tok, List.mem_of_find?_eq_some hfind2, hbeqid⟩
  show ∃ st1, refreshWithCookie env st rc c = (st1, .ok (mkSuccess user rc))
  unfold refreshWithCookie
  simp only [hp, hfind, hrev, hver, huser, updateRevokeById_pos rc.now hany]
  rw [if_neg (by simp [hexp])]
  rw [if_neg (by simp)]
  exact ⟨_, rfl⟩

theorem refresh_ignores_inactive_user_witness :
    ∃ st1 : Store,
      refresh testCrypto
          { users := [userBob], refreshTokens := [tokBob1] }
          (rcAt 300 "R6" "s6") (some "R5.s5")
        = (st1, .ok (mkSuccess userBob (rcAt 300 "R6" "s6"))) :=
  refresh_ignores_inactive_user testCrypto
    { users := [userBob], refreshTokens := [tokBob1] }
    (rcAt 300 "R6" "s6") "R5.s5" "R5" "s5" tokBob1 userBob
    rfl rfl rfl (by decide) (by decide) rfl rfl

/-- Inversion of a successful refresh call. -/
theorem refresh_ok_inv {env : Crypto} {st st1 : Store} {rc : ReqCtx}
    {c : String} {out : AuthSuccess}
    (h : refreshWithCookie env st rc c = (st1, .ok out)) :
    ∃ tid rtok tok user,
      parseCookie c = some (tid, rtok) ∧
      findTokenById st tid = some tok ∧
      tok.revokedAt = none ∧
      ¬ tok.expiresAt < rc.now ∧
      env.argonVerify tok.tokenHash rtok = true ∧
      findUserById st tok.userId = some user ∧
      st1 = { st with refreshTokens := st.refreshTokens.map (markRevokedIfId tid rc.now) ++ [newRefreshRow rc tok.userId (env.argonHash rc.freshSecret)] } ∧
      out = mkSuccess user rc := by
  unfold refreshWithCookie at h
  split at h
  · exact absurd h (by simp)
  · rename_i tid rtok hp
    split at h
    · exact absurd h (by simp)
    · rename_i tok hfind
      split at h
      · exact absurd h (by simp)
      · rename_i hcond
        split at h
        · exact absurd h (by simp)
        · rename_i hver
          split at h
          · exact absurd h (by simp)
          · rename_i user huser
            split at h
            · exact absurd h (by simp)
            · rename_i st1x hupd
              have hfind2 : st.refreshTokens.find? (fun r => r.id == tid) = some tok := hfind
              have hbeqid := List.find?_some hfind2
              have hany : st.refreshTokens.any (fun r => r.id == tid) = true := by
                rw [List.any_eq_true]
                exact ⟨tok, List.mem_of_find?_eq_some hfind2, hbeqid⟩
              rw [updateRevokeById_pos rc.now hany] at hupd
              have hst1x := Option.some.inj hupd
              have hrev : tok.revokedAt = none := by
                rcases hre : tok.revokedAt with - | v
                · rfl
                · rw [hre] at hcond
                  simp at hcond
              have hexp : ¬ tok.expiresAt < rc.now := by
                intro hlt
                apply hcond
                simp [hlt]
              have hvt : env.argonVerify tok.tokenHash rtok = true := by
                rcases hv : env.argonVerify tok.tokenHash rtok with - | -
                · rw [hv] at hver
                  simp at hver
                · rfl
              injection h with h1 h2
              injection h2 with h3
              refine ⟨tid, rtok, tok, user, hp, hfind, hrev, hexp, hvt, huser, ?_, h3.symm⟩
              rw [← h1, ← hst1x]

/-- Claim C1 (amended): after any successful rotation, presenting the same
cookie again fails with `InvalidOrExpiredToken` — not `ReuseDetected` — the
store is unchanged by the second call, and the successor record created by
the first call is still unrevoked: no family-wide revocation happens. -/
theorem refresh_second_use_same_cookie :
    ∀ (env : Crypto) (st st1 : Store) (rc rc2 : ReqCtx) (c : String)
      (out : AuthSuccess),
      refresh env st rc (some c) = (st1, .ok out) →
      refresh env st1 rc2 (some c) = (st1, .error .invalidOrExpiredToken) ∧
      ∃ r ∈ st1.refreshTokens,
        r.id = rc.freshId ∧ r.userId = out.claims.sub ∧ r.revokedAt = none := by
  intro env st st1 rc rc2 c out h
  have h0 : refreshWithCookie env st rc c = (st1, .ok out) := h
  obtain ⟨tid, rtok, tok, user, hp, hfind, hrev, hexp, hver, huser, hst1, hout⟩ :=
    refresh_ok_inv h0
  have hfind2 : st.refreshTokens.find? (fun r => r.id == tid) = some tok := hfind
  have hbeqid := List.find?_some hfind2
  have huser2 : st.users.find? (fun u => u.id == tok.userId) = some user := huser
  have hbequ := List.find?_some huser2
  have hmark : markRevokedIfId tid rc.now tok = { tok with revokedAt := some rc.now } := by
    unfold markRevokedIfId
    rw [if_pos hbeqid]
  have hfind1 : findTokenById st1 tid = some { tok with revokedAt := some rc.now } := by
    rw [hst1]
    show List.find? (fun r : RefreshToken => r.id == tid)
        (st.refreshTokens.map (markRevokedIfId tid rc.now)
          ++ [newRefreshRow rc tok.userId (env.argonHash rc.freshSecret)])
      = some { tok with revokedAt := some rc.now }
    rw [List.find?_append, List.find?_map]
    have hc : ∀ r : RefreshToken,
        ((fun r => r.id == tid) ∘ markRevokedIfId tid rc.now) r
          = (fun r => r.id == tid) r := by
      intro r
      simp only [Function.comp]
      rw [markRevokedIfId_id]
    rw [find?_congr_fn hc, hfind2]
    show (some (markRevokedIfId tid rc.now tok)).or _ = _
    rw [hmark]
    rfl
  constructor
  · show refreshWithCookie env st1 rc2 c = (st1, .error .invalidOrExpiredToken)
    unfold refreshWithCookie
    simp only [hp, hfind1]
    rw [if_pos]
    simp
  · refine ⟨newRefreshRow rc tok.userId (env.argonHash rc.freshSecret), ?_, rfl, ?_, rfl⟩
    · rw [hst1]
      show _ ∈ _ ++ [_]
      exact List.mem_append_right _ (List.mem_singleton.mpr rfl)
    · show tok.userId = out.claims.sub
      rw [hout]
      show tok.userId = user.id
      exact (beq_iff_eq.mp hbequ).symm

/-- Claim C1 counterexample: with a single live chain, the first refresh
succeeds; the second sequential refresh with the same cookie answers
`InvalidOrExpiredToken`, not `ReuseDetected`, and an unrevoked record of
the user remains — the claimed cascade does not occur. -/
theorem refresh_double_use_counterexample :
    (refresh testCrypto storeA (rcAt 100 "R2" "s2") (some "R1.s1")).2
      = .ok (mkSuccess userAlice (rcAt 100 "R2" "s2")) ∧
    refresh testCrypto
        (refresh testCrypto storeA (rcAt 100 "R2" "s2") (some "R1.s1")).1
        (rcAt 200 "R3" "s3") (some "R1.s1")
      = ((refresh testCrypto storeA (rcAt 100 "R2" "s2") (some "R1.s1")).1,
         .error .invalidOrExpiredToken) ∧
    AuthError.invalidOrExpiredToken ≠ AuthError.reuseDetected ∧
    ∃ r ∈ (refresh testCrypto storeA (rcAt 100 "R2" "s2")
            (some "R1.s1")).1.refreshTokens,
      r.userId = "u1" ∧ r.revokedAt = none := by
  refine ⟨rfl, rfl, by decide, by decide⟩

/-- Witness: the amended C1 theorem applied to the concrete one-chain store. -/
theorem refresh_second_use_same_cookie_witness :
    refresh testCrypto
        (refresh testCrypto storeA (rcAt 100 "R2" "s2") (some "R1.s1")).1
        (rcAt 200 "R3" "s3") (some "R1.s1")
      = ((refresh testCrypto storeA (rcAt 100 "R2" "s2") (some "R1.s1")).1,
         .error .invalidOrExpiredToken) :=
  (refresh_second_use_same_cookie testCrypto storeA
    (refresh testCrypto storeA (rcAt 100 "R2" "s2") (some "R1.s1")).1
    (rcAt 100 "R2" "s2") (rcAt 200 "R3" "s3") "R1.s1"
    (mkSuccess userAlice (rcAt 100 "R2" "s2")) rfl).1

theorem splitDotChars_no_dot :
    ∀ {l : List Char}, l.contains '.' = false → splitDotChars l = [l] := by
  intro l
  induction l with
  | nil => intro _; rfl
  | cons a t ih =>
    intro h
    rw [List.contains_cons] at h
    have h1 : ('.' == a) = false := by
      cases hx : ('.' == a)
      · rfl
      · rw [hx] at h; simp at h
    have h2 : t.contains '.' = false := by
      cases hx : t.contains '.'
      · rfl
      · rw [hx] at h; simp at h
    have ha : (a == '.') = false := by
      cases hx : (a == '.')
      · rfl
      · rw [beq_iff_eq] at hx
        rw [hx] at h1
        simp at h1
    unfold splitDotChars
    rw [ha, ih h2]
    rfl

theorem splitDotChars_append_dot :
    ∀ {a : List Char}, a.contains '.' = false → ∀ (b : List Char),
      splitDotChars (a ++ '.' :: b) = a :: splitDotChars b := by
  intro a
  induction a with
  | nil =>
    intro _ b
    rfl
  | cons x t ih =>
    intro h b
    rw [List.contains_cons] at h
    have h1 : (x == '.') = false := by
      cases hx : (x == '.')
      · rfl
      · rw [beq_iff_eq] at hx
        rw [hx] at h
        simp at h
    have h2 : t.contains '.' = false := by
      cases hx : t.contains '.'
      · rfl
      · rw [hx] at h; simp at h
    show splitDotChars (x :: (t ++ '.' :: b)) = (x :: t) :: splitDotChars b
    conv_lhs => unfold splitDotChars
    rw [h1, ih h2 b]
    rfl

theorem parseCookie_clean {a b : String}
    (ha : cleanFrag a = true) (hb : cleanFrag b = true) :
    parseCookie (a ++ "." ++ b) = some (a, b) := by
  unfold cleanFrag at ha hb
  rw [Bool.and_eq_true] at ha hb
  obtain ⟨ha1, ha2⟩ := ha
  obtain ⟨hb1, hb2⟩ := hb
  have ha2b : a.data.contains '.' = false := by
    cases hx : a.data.contains '.'
    · rfl
    · rw [hx] at ha2; exact absurd ha2 (by simp)
  have hb2b : b.data.contains '.' = false := by
    cases hx : b.data.contains '.'
    · rfl
    · rw [hx] at hb2; exact absurd hb2 (by simp)
  have hae : (a == "") = false := by
    cases hx : (a == "")
    · rfl
    · rw [bne_iff_ne] at ha1
      exact absurd (beq_iff_eq.mp hx) ha1
  have hbe : (b == "") = false := by
    cases hx : (b == "")
    · rfl
    · rw [bne_iff_ne] at hb1
      exact absurd (beq_iff_eq.mp hx) hb1
  have hd : (a ++ "." ++ b).data = a.data ++ '.' :: b.data := by
    show (a.data ++ ['.']) ++ b.data = a.data ++ '.' :: b.data
    rw [List.append_assoc]
    rfl
  unfold parseCookie splitDot
  rw [hd, splitDotChars_append_dot ha2b b.data, splitDotChars_no_dot hb2b]
  show (if a == "" || b == "" then none else some (a, b)) = some (a, b)
  rw [hae, hbe]
  rfl

theorem isActiveTok_antitone {r : RefreshToken} {t1 t2 : Nat} (h : t1 ≤ t2)
    (ha : isActiveTok t2 r = true) : isActiveTok t1 r = true := by
  unfold isActiveTok at ha ⊢
  rw [Bool.and_eq_true] at ha ⊢
  obtain ⟨h1, h2⟩ := ha
  refine ⟨h1, ?_⟩
  simp only [Bool.not_eq_true', decide_eq_false_iff_not] at h2 ⊢
  omega

theorem activeTokenCount_antitone (st : Store) (uid : String) {t1 t2 : Nat}
    (h : t1 ≤ t2) :
    activeTokenCount st uid t2 ≤ activeTokenCount st uid t1 := by
  unfold activeTokenCount
  apply List.countP_mono_left
  intro r _ hp
  unfold activePred at hp ⊢
  rw [Bool.and_eq_true] at hp ⊢
  exact ⟨hp.1, isActiveTok_antitone h hp.2⟩

theorem isActiveTok_newRow (rc : ReqCtx) (uid hash : String) :
    isActiveTok rc.now (newRefreshRow rc uid hash) = true := by
  have hlt : ¬ (rc.now + thirtyDaysMs < rc.now) := by omega
  simp [newRefreshRow, isActiveTok, hlt]

theorem countP_split_rowId (p : RefreshToken → Bool) (tid : String)
    (l : List RefreshToken) :
    l.countP p
      = l.countP (fun a => p a && (a.id == tid))
        + l.countP (fun a => p a && !(a.id == tid)) := by
  induction l with
  | nil => rfl
  | cons a t ih =>
    rw [List.countP_cons, List.countP_cons, List.countP_cons, ih]
    cases hp : p a <;> cases hq : (a.id == tid) <;> simp [hp, hq] <;> omega

theorem rotation_preserves_activeCount {st : Store} {uid tid : String}
    {tok : RefreshToken} (rc : ReqCtx) (newTok : RefreshToken)
    (hmem : tok ∈ st.refreshTokens)
    (hbeqid : (tok.id == tid) = true)
    (huid : tok.userId = uid)
    (hact : isActiveTok rc.now tok = true)
    (hcount : activeTokenCount st uid rc.now = 1)
    (hnewuid : newTok.userId = uid)
    (hnewact : isActiveTok rc.now newTok = true) :
    activeTokenCount
      { st with refreshTokens := st.refreshTokens.map (markRevokedIfId tid rc.now) ++ [newTok] }
      uid rc.now = 1 := by
  unfold activeTokenCount at hcount ⊢
  rw [List.countP_append, List.countP_map]
  have hsingle : List.countP (activePred uid rc.now) [newTok] = 1 := by
    rw [List.countP_cons]
    have : activePred uid rc.now newTok = true := by
      unfold activePred
      rw [Bool.and_eq_true]
      exact ⟨beq_iff_eq.mpr hnewuid, hnewact⟩
    simp [this]
  have hpt : ∀ r : RefreshToken,
      (activePred uid rc.now ∘ markRevokedIfId tid rc.now) r
        = (activePred uid rc.now r && !(r.id == tid)) := by
    intro r
    simp only [Function.comp]
    unfold markRevokedIfId
    by_cases hx : (r.id == tid) = true
    · rw [if_pos hx, hx]
      show activePred uid rc.now { r with revokedAt := some rc.now } = _
      have hz : activePred uid rc.now { r with revokedAt := some rc.now } = false := by
        unfold activePred isActiveTok
        simp
      rw [hz]
      simp
    · rw [if_neg hx]
      have hxf : (r.id == tid) = false := by
        cases hxx : (r.id == tid)
        · rfl
        · exact absurd hxx hx
      rw [hxf]
      simp
  have hc2 :
      List.countP (activePred uid rc.now ∘ markRevokedIfId tid rc.now) st.refreshTokens
        = List.countP (fun a : RefreshToken => activePred uid rc.now a && !(a.id == tid)) st.refreshTokens :=
    List.countP_congr (fun x _ => by rw [hpt x])
  have hge : 0 < List.countP
      (fun a : RefreshToken => activePred uid rc.now a && (a.id == tid))
      st.refreshTokens := by
    rw [List.countP_pos_iff]
    refine ⟨tok, hmem, ?_⟩
    show (activePred uid rc.now tok && (tok.id == tid)) = true
    rw [Bool.and_eq_true]
    refine ⟨?_, hbeqid⟩
    unfold activePred
    rw [Bool.and_eq_true]
    exact ⟨beq_iff_eq.mpr huid, hact⟩
  have hsplit := countP_split_rowId (activePred uid rc.now) tid st.refreshTokens
  rw [hc2, hsingle]
  omega

theorem storeIds_rotated (st : Store) (tid : String) (now : Nat)
    (newTok : RefreshToken) :
    storeIds { st with refreshTokens := st.refreshTokens.map (markRevokedIfId tid now) ++ [newTok] }
      = storeIds st ++ [newTok.id] := by
  unfold storeIds
  show (st.refreshTokens.map (markRevokedIfId tid now) ++ [newTok]).map RefreshToken.id
    = st.refreshTokens.map RefreshToken.id ++ [newTok.id]
  rw [List.map_append, List.map_map]
  have h1 : st.refreshTokens.map (RefreshToken.id ∘ markRevokedIfId tid now)
      = st.refreshTokens.map RefreshToken.id :=
    List.map_congr_left (fun a _ => markRevokedIfId_id tid now a)
  rw [h1]
  rfl

theorem login_ok_inv {env : Crypto} {st st1 : Store} {rc : ReqCtx}
    {email password : String} {totpCode : Option String} {out : AuthSuccess}
    (h : login env st rc email password totpCode = (st1, .ok out)) :
    ∃ user, findUserByEmail st email = some user ∧
      st1 = { st with refreshTokens := st.refreshTokens ++ [newRefreshRow rc user.id (env.argonHash rc.freshSecret)] } ∧
      out = mkSuccess user rc := by
  unfold login at h
  split at h
  · exact absurd h (by simp)
  · rename_i user hfind
    split at h
    · exact absurd h (by simp)
    · split at h
      · exact absurd h (by simp)
      · split at h
        · rename_i secret h2fa
          split at h
          · exact absurd h (by simp)
          · split at h
            · exact absurd h (by simp)
            · have h2 : ({ st with refreshTokens := st.refreshTokens ++ [newRefreshRow rc user.id (env.argonHash rc.freshSecret)] },
                  (Except.ok (mkSuccess user rc) : Except AuthError AuthSuccess)) = (st1, Except.ok out) := h
              injection h2 with ha hb
              injection hb with hc
              exact ⟨user, hfind, ha.symm, hc.symm⟩
        · have h2 : ({ st with refreshTokens := st.refreshTokens ++ [newRefreshRow rc user.id (env.argonHash rc.freshSecret)] },
              (Except.ok (mkSuccess user rc) : Except AuthError AuthSuccess)) = (st1, Except.ok out) := h
          injection h2 with ha hb
          injection hb with hc
          exact ⟨user, hfind, ha.symm, hc.symm⟩

theorem runRefreshes_active_inv (env : Crypto) (uid : String) :
    ∀ (steps : List ReqCtx) (st : Store) (cookie : String) (t0 : Nat) (st2 : Store),
      activeTokenCount st uid t0 = 1 →
      (∃ tid rtok tok, parseCookie cookie = some (tid, rtok) ∧
        st.refreshTokens.find? (fun r => r.id == tid) = some tok ∧
        tok.userId = uid) →
      (∀ rc ∈ steps, cleanFrag rc.freshId = true ∧ cleanFrag rc.freshSecret = true) →
      (∀ rc ∈ steps, rc.freshId ∉ storeIds st) →
      (steps.map ReqCtx.freshId).Nodup →
      timesMonoFrom t0 steps = true →
      runRefreshes env st cookie steps = some st2 →
      activeTokenCount st2 uid (endTimeFrom t0 steps) = 1 := by
  intro steps
  induction steps with
  | nil =>
    intro st cookie t0 st2 hcount _ _ _ _ _ hrun
    have hst : st = st2 := Option.some.inj hrun
    rw [← hst]
    exact hcount
  | cons rc rest ih =>
    intro st cookie t0 st2 hcount hck hclean hfresh hnd htm hrun
    unfold timesMonoFrom at htm
    rw [Bool.and_eq_true] at htm
    obtain ⟨ht0b, htm2⟩ := htm
    have ht0 : t0 ≤ rc.now := of_decide_eq_true ht0b
    obtain ⟨tid, rtok, tok, hpc, hfc, huc⟩ := hck
    unfold runRefreshes at hrun
    cases hres : refresh env st rc (some cookie) with
    | mk stx res =>
      rw [hres] at hrun
      cases res with
      | error e => exact absurd hrun (by simp)
      | ok out =>
        have hrun2 : runRefreshes env stx out.cookie rest = some st2 := hrun
        have h0 : refreshWithCookie env st rc cookie = (stx, .ok out) := hres
        obtain ⟨tid2, rtok2, tok2, user2, hp2, hfind2, hrev2, hexp2, hver2, huser2, hstx, hout⟩ :=
          refresh_ok_inv h0
        have hpair := Option.some.inj (hpc.symm.trans hp2)
        injection hpair with he1 he2
        subst he1
        subst he2
        have hfind2b : st.refreshTokens.find? (fun r => r.id == tid) = some tok2 := hfind2
        have htok := Option.some.inj (hfc.symm.trans hfind2b)
        subst htok
        have hbeqid := List.find?_some hfc
        have hmemtok := List.mem_of_find?_eq_some hfc
        have hactive : isActiveTok rc.now tok = true := by
          unfold isActiveTok
          rw [hrev2]
          simp [hexp2]
        have hle := activeTokenCount_antitone st uid ht0
        have hge : 0 < activeTokenCount st uid rc.now := by
          unfold activeTokenCount
          rw [List.countP_pos_iff]
          refine ⟨tok, hmemtok, ?_⟩
          unfold activePred
          rw [Bool.and_eq_true]
          exact ⟨beq_iff_eq.mpr huc, hactive⟩
        have hc1 : activeTokenCount st uid rc.now = 1 := by omega
        have hnewuid : (newRefreshRow rc tok.userId (env.argonHash rc.freshSecret)).userId = uid := huc
        have hnewact := isActiveTok_newRow rc tok.userId (env.argonHash rc.freshSecret)
        have hcountx : activeTokenCount stx uid rc.now = 1 := by
          rw [hstx]
          exact rotation_preserves_activeCount rc _ hmemtok hbeqid huc hactive hc1 hnewuid hnewact
        have hcleanrc := hclean rc (List.mem_cons_self rc rest)
        have hcookie : out.cookie = rc.freshId ++ "." ++ rc.freshSecret := by
          rw [hout]
          rfl
        have hpc2 : parseCookie out.cookie = some (rc.freshId, rc.freshSecret) := by
          rw [hcookie]
          exact parseCookie_clean hcleanrc.1 hcleanrc.2
        have hfreshrc := hfresh rc (List.mem_cons_self rc rest)
        have hids : storeIds stx = storeIds st ++ [rc.freshId] := by
          rw [hstx]
          exact storeIds_rotated st tid rc.now _
        have hfind_new : stx.refreshTokens.find? (fun r => r.id == rc.freshId)
            = some (newRefreshRow rc tok.userId (env.argonHash rc.freshSecret)) := by
          have hxl : stx.refreshTokens
              = st.refreshTokens.map (markRevokedIfId tid rc.now)
                ++ [newRefreshRow rc tok.userId (env.argonHash rc.freshSecret)] := by
            rw [hstx]
          rw [hxl, List.find?_append]
          have hnone : (st.refreshTokens.map (markRevokedIfId tid rc.now)).find?
              (fun r => r.id == rc.freshId) = none := by
            rw [List.find?_eq_none]
            intro x hx
            rw [List.mem_map] at hx
            obtain ⟨r0, hr0, rfl⟩ := hx
            rw [markRevokedIfId_id]
            intro hbeq
            apply hfreshrc
            rw [beq_iff_eq] at hbeq
            rw [← hbeq]
            unfold storeIds
            exact List.mem_map_of_mem RefreshToken.id hr0
          rw [hnone, Option.none_or, List.find?_cons]
          have hps : ((newRefreshRow rc tok.userId (env.argonHash rc.freshSecret)).id == rc.freshId) = true := by
            show (rc.freshId == rc.freshId) = true
            exact beq_self_eq_true rc.freshId
          rw [hps]
        have hinv2 : ∃ tid3 rtok3 tok3, parseCookie out.cookie = some (tid3, rtok3) ∧
            stx.refreshTokens.find? (fun r => r.id == tid3) = some tok3 ∧
            tok3.userId = uid :=
          ⟨rc.freshId, rc.freshSecret, _, hpc2, hfind_new, hnewuid⟩
        have hclean2 : ∀ rc2 ∈ rest, cleanFrag rc2.freshId = true ∧ cleanFrag rc2.freshSecret = true :=
          fun rc2 hm => hclean rc2 (List.mem_cons_of_mem rc hm)
        rw [List.map_cons] at hnd
        have hnd2 := (List.nodup_cons.mp hnd).2
        have hnotin := (List.nodup_cons.mp hnd).1
        have hfresh2 : ∀ rc2 ∈ rest, rc2.freshId ∉ storeIds stx := by
          intro rc2 hm hin
          rw [hids, List.mem_append] at hin
          cases hin with
          | inl hin1 => exact hfresh rc2 (List.mem_cons_of_mem rc hm) hin1
          | inr hin2 =>
            rw [List.mem_singleton] at hin2
            apply hnotin
            rw [← hin2]
            exact List.mem_map_of_mem ReqCtx.freshId hm
        exact ih stx out.cookie rc.now st2 hcountx hinv2 hclean2 hfresh2 hnd2 htm2 hrun2

/-- Claim C3: starting from a store with no ACTIVE records for the user, a
successful login leaves exactly one ACTIVE RefreshToken for that user, and
after any number of successful chained refreshes (fresh record ids,
dot-free generated values, nondecreasing call times) the store still holds
exactly one ACTIVE record for that user — never zero while the session is
alive and never more than one.  Instantiating the step list with each
prefix of a trace gives the count after every completed operation. -/
theorem login_then_refreshes_single_active :
    ∀ (env : Crypto) (st st1 st2 : Store) (rc0 : ReqCtx)
      (email password : String) (totpCode : Option String) (out : AuthSuccess)
      (steps : List ReqCtx),
      login env st rc0 email password totpCode = (st1, .ok out) →
      activeTokenCount st out.claims.sub rc0.now = 0 →
      cleanFrag rc0.freshId = true →
      cleanFrag rc0.freshSecret = true →
      rc0.freshId ∉ storeIds st →
      (∀ rc ∈ steps, cleanFrag rc.freshId = true ∧ cleanFrag rc.freshSecret = true) →
      (∀ rc ∈ steps, rc.freshId ∉ storeIds st1) →
      (steps.map ReqCtx.freshId).Nodup →
      timesMonoFrom rc0.now steps = true →
      runRefreshes env st1 out.cookie steps = some st2 →
      activeTokenCount st1 out.claims.sub rc0.now = 1 ∧
      activeTokenCount st2 out.claims.sub (endTimeFrom rc0.now steps) = 1 := by
  intro env st st1 st2 rc0 email password totpCode out steps hlog hc0 hcf1 hcf2
    hfr0 hclean hfresh hnd htm hrun
  obtain ⟨user, hfind, hst1, hout⟩ := login_ok_inv hlog
  have hsub : out.claims.sub = user.id := by
    rw [hout]
    rfl
  have hcount1 : activeTokenCount st1 out.claims.sub rc0.now = 1 := by
    rw [hst1, hsub]
    unfold activeTokenCount
    rw [List.countP_append]
    have h0 : List.countP (activePred user.id rc0.now) st.refreshTokens = 0 := by
      have h0b := hc0
      rw [hsub] at h0b
      exact h0b
    rw [h0, List.countP_cons]
    have hp : activePred user.id rc0.now
        (newRefreshRow rc0 user.id (env.argonHash rc0.freshSecret)) = true := by
      unfold activePred
      rw [Bool.and_eq_true]
      exact ⟨beq_self_eq_true user.id, isActiveTok_newRow rc0 user.id (env.argonHash rc0.freshSecret)⟩
    simp [hp]
  refine ⟨hcount1, ?_⟩
  have hcookie : out.cookie = rc0.freshId ++ "." ++ rc0.freshSecret := by
    rw [hout]
    rfl
  have hpc : parseCookie out.cookie = some (rc0.freshId, rc0.freshSecret) := by
    rw [hcookie]
    exact parseCookie_clean hcf1 hcf2
  have hfind_new : st1.refreshTokens.find? (fun r => r.id == rc0.freshId)
      = some (newRefreshRow rc0 user.id (env.argonHash rc0.freshSecret)) := by
    have hxl : st1.refreshTokens
        = st.refreshTokens ++ [newRefreshRow rc0 user.id (env.argonHash rc0.freshSecret)] := by
      rw [hst1]
    rw [hxl, List.find?_append]
    have hnone : st.refreshTokens.find? (fun r => r.id == rc0.freshId) = none := by
      rw [List.find?_eq_none]
      intro x hx hbeq
      apply hfr0
      rw [beq_iff_eq] at hbeq
      rw [← hbeq]
      unfold storeIds
      exact List.mem_map_of_mem RefreshToken.id hx
    rw [hnone, Option.none_or, List.find?_cons]
    have hps : ((newRefreshRow rc0 user.id (env.argonHash rc0.freshSecret)).id == rc0.freshId) = true := by
      show (rc0.freshId == rc0.freshId) = true
      exact beq_self_eq_true rc0.freshId
    rw [hps]
  have hinv : ∃ tid rtok tok, parseCookie out.cookie = some (tid, rtok) ∧
      st1.refreshTokens.find? (fun r => r.id == tid) = some tok ∧
      tok.userId = out.claims.sub :=
    ⟨rc0.freshId, rc0.freshSecret, _, hpc, hfind_new, hsub.symm⟩
  exact runRefreshes_active_inv env out.claims.sub steps st1 out.cookie rc0.now st2
    hcount1 hinv hclean hfresh hnd htm hrun

/-- Witness: login then two chained refreshes on a concrete store. -/
theorem login_then_refreshes_single_active_witness :
    activeTokenCount
      ((runRefreshes testCrypto
          (login testCrypto storeL (rcAt 10 "L1" "k0") "a@x.com" "Secret1234" none).1
          (mkSuccess userAlice (rcAt 10 "L1" "k0")).cookie
          [rcAt 20 "L2" "k1", rcAt 30 "L3" "k2"]).getD storeL)
      "u1" 30 = 1 :=
  (login_then_refreshes_single_active testCrypto storeL
    (login testCrypto storeL (rcAt 10 "L1" "k0") "a@x.com" "Secret1234" none).1
    ((runRefreshes testCrypto
        (login testCrypto storeL (rcAt 10 "L1" "k0") "a@x.com" "Secret1234" none).1
        (mkSuccess userAlice (rcAt 10 "L1" "k0")).cookie
        [rcAt 20 "L2" "k1", rcAt 30 "L3" "k2"]).getD storeL)
    (rcAt 10 "L1" "k0") "a@x.com" "Secret1234" none
    (mkSuccess userAlice (rcAt 10 "L1" "k0"))
    [rcAt 20 "L2" "k1", rcAt 30 "L3" "k2"]
    rfl rfl rfl rfl (by decide) (by decide) (by decide) (by decide) rfl rfl).2
